import Mathlib

set_option autoImplicit false

/-!
Shallow embedding of the `python-demo-project/demo` package:
`data_processor.py`, `user.py`, `user_service.py`, `api_controller.py`.

Python dictionaries are modelled as insertion-ordered association lists
(`List (String × β)`); `datetime.now()` / `time.time()` readings are threaded
as explicit integer parameters; raised exceptions are modelled with
`Except String`, paired with the post-mutation state (Python mutates objects
in place, so state changes made before a `raise` remain visible).
-/

namespace Demo

/-! ### Python `dict` operations (insertion-ordered, unique keys) -/

/-- `d[k]` lookup / `k in d` membership: first binding of the key. -/
def dictLookup {β : Type} : List (String × β) → String → Option β
  | [], _ => none
  | (k, v) :: rest, key => if k = key then some v else dictLookup rest key

/-- `d[k] = v`: replace the value in place if the key exists, else append. -/
def dictInsert {β : Type} : List (String × β) → String → β → List (String × β)
  | [], key, v => [(key, v)]
  | (k, w) :: rest, key, v =>
    if k = key then (k, v) :: rest else (k, w) :: dictInsert rest key v

/-- `del d[k]`: remove the binding of the key. -/
def dictErase {β : Type} : List (String × β) → String → List (String × β)
  | [], _ => []
  | (k, w) :: rest, key => if k = key then rest else (k, w) :: dictErase rest key

/-! ### `demo/data_processor.py` -/

/-- `ProcessedData` dataclass.  `timestamp` is the `datetime.now()` reading
taken at construction, as an integer time. -/
structure ProcessedData (α : Type) where
  id : String
  original_data : α
  processed_data : String
  processing_time : Int
  timestamp : Int
  deriving DecidableEq

/-- `ProcessedData.age_seconds` at the current time `now`. -/
def ProcessedData.age_seconds {α : Type} (d : ProcessedData α) (now : Int) : Int :=
  now - d.timestamp

/-- `ProcessedData.is_expired`: `age_seconds > ttl_seconds`. -/
def ProcessedData.is_expired {α : Type} (d : ProcessedData α) (now ttl_seconds : Int) : Bool :=
  ttl_seconds < d.age_seconds now

/-- `CacheStats` dataclass. -/
structure CacheStats where
  hits : Nat := 0
  misses : Nat := 0
  evictions : Nat := 0
  size : Nat := 0
  deriving DecidableEq

/-- The injected `DataValidator` protocol. -/
structure DataValidator (α : Type) where
  validate : α → Bool
  get_validation_errors : α → List String

/-- The processor's fixed configuration: constructor arguments plus the
ambient Python primitives it calls (`str`, `hash`, `hashlib.md5(...).hexdigest`),
kept abstract as injected functions. -/
structure Config (α : Type) where
  strRep : α → String
  pyHash : String → Int
  md5hex : String → String
  validator : Option (DataValidator α)
  max_cache_size : Nat

/-- The processor's mutable state.  `validateCalls` and `doProcessingCalls`
are instrumentation counters incremented exactly where the source invokes
`self._validator.validate` and `self._do_processing`. -/
structure ProcState (α : Type) where
  cache : List (String × ProcessedData α) := []
  stats : CacheStats := {}
  processing_count : Nat := 0
  validateCalls : Nat := 0
  doProcessingCalls : Nat := 0
  deriving DecidableEq

/-- `DataProcessor._get_cache_key`: `f"data_{hash(str(data))}"`. -/
def get_cache_key {α : Type} (cfg : Config α) (x : α) : String :=
  "data_" ++ toString (cfg.pyHash (cfg.strRep x))

/-- `DataProcessor._do_processing`: `f"processed_{md5(str(data)).hexdigest()}"`. -/
def do_processing {α : Type} (cfg : Config α) (x : α) : String :=
  "processed_" ++ cfg.md5hex (cfg.strRep x)

/-- `min(self._cache.keys(), key=lambda k: self._cache[k].timestamp)` on a
nonempty dict: left fold keeping the first binding with the strictly smallest
timestamp, paired with that timestamp. -/
def minFold {α : Type} : (String × Int) → List (String × ProcessedData α) → String × Int
  | b, [] => b
  | b, (k, d) :: rest => minFold (if d.timestamp < b.2 then (k, d.timestamp) else b) rest

/-- The key returned by `min(...)`, `none` on an empty cache (where Python
raises `ValueError`). -/
def oldestKey {α : Type} : List (String × ProcessedData α) → Option String
  | [] => none
  | (k, d) :: rest => some (minFold (k, d.timestamp) rest).1

/-- `DataProcessor._add_to_cache`: evict the oldest entry when
`len(cache) >= max_cache_size`, then insert.  On an empty cache at capacity
(only possible with `max_cache_size = 0`) Python's `min` raises. -/
def add_to_cache {α : Type} (max_cache_size : Nat) (key : String) (d : ProcessedData α)
    (cache : List (String × ProcessedData α)) (stats : CacheStats) :
    Except String (List (String × ProcessedData α) × CacheStats) :=
  if cache.length ≥ max_cache_size then
    match oldestKey cache with
    | none => .error "min() arg is an empty sequence"
    | some k0 =>
      .ok (dictInsert (dictErase cache k0) key d,
           { stats with evictions := stats.evictions + 1 })
  else
    .ok (dictInsert cache key d, stats)

/-- Python `str()` of a list of strings, used in the `ValueError` f-string. -/
def pyReprList (xs : List String) : String :=
  let q : String := ⟨[Char.ofNat 39]⟩
  "[" ++ String.intercalate ", " (xs.map (fun s => q ++ s ++ q)) ++ "]"

/-- Continuation of `DataProcessor.process` after the validation step:
timing, `_do_processing`, construction of the result, `_add_to_cache`. -/
def finishProcess {α : Type} (cfg : Config α) (tNow elapsed : Int) (x : α) (key : String)
    (s : ProcState α) : (Except String (ProcessedData α)) × ProcState α :=
  let s1 := { s with doProcessingCalls := s.doProcessingCalls + 1 }
  let result : ProcessedData α :=
    { id := key, original_data := x, processed_data := do_processing cfg x,
      processing_time := elapsed, timestamp := tNow }
  match add_to_cache cfg.max_cache_size key result s1.cache s1.stats with
  | .error e => (.error e, s1)
  | .ok (cache1, stats1) => (.ok result, { s1 with cache := cache1, stats := stats1 })

/-- `DataProcessor.process`.  `tNow` is the `datetime.now()` reading used for
the new entry's timestamp, `elapsed` the measured `time.time()` difference. -/
def process {α : Type} (cfg : Config α) (tNow elapsed : Int) (x : α) (s : ProcState α) :
    (Except String (ProcessedData α)) × ProcState α :=
  let s0 := { s with processing_count := s.processing_count + 1 }
  let key := get_cache_key cfg x
  match dictLookup s0.cache key with
  | some d => (.ok d, { s0 with stats := { s0.stats with hits := s0.stats.hits + 1 } })
  | none =>
    let s1 := { s0 with stats := { s0.stats with misses := s0.stats.misses + 1 } }
    match cfg.validator with
    | some v =>
      let s2 := { s1 with validateCalls := s1.validateCalls + 1 }
      if v.validate x then finishProcess cfg tNow elapsed x key s2
      else (.error ("Invalid data: " ++ pyReprList (v.get_validation_errors x)), s2)
    | none => finishProcess cfg tNow elapsed x key s1

/-- The `for key in expired_keys: del ...; evictions += 1` loop of
`DataProcessor.remove_expired`. -/
def deleteKeys {α : Type} : List String → List (String × ProcessedData α) → CacheStats →
    List (String × ProcessedData α) × CacheStats
  | [], cache, stats => (cache, stats)
  | k :: ks, cache, stats =>
    deleteKeys ks (dictErase cache k) { stats with evictions := stats.evictions + 1 }

/-- `DataProcessor.remove_expired`: collect the expired keys, delete each
(incrementing the eviction counter), return the count removed. -/
def remove_expired {α : Type} (now ttl_seconds : Int)
    (cache : List (String × ProcessedData α)) (stats : CacheStats) :
    Nat × List (String × ProcessedData α) × CacheStats :=
  let expired_keys :=
    (cache.filter (fun e => e.2.is_expired now ttl_seconds)).map Prod.fst
  let fin := deleteKeys expired_keys cache stats
  (expired_keys.length, fin.1, fin.2)

/-- `DataProcessor.iter_valid_data`: the non-expired cached values, in order. -/
def iter_valid_data {α : Type} (now ttl_seconds : Int)
    (cache : List (String × ProcessedData α)) : List (ProcessedData α) :=
  (cache.filter (fun e => !(e.2.is_expired now ttl_seconds))).map Prod.snd

/-! ### `demo/user.py` -/

/-- The `User` dataclass from `user.py` (the one the API controller imports).
`created_at` and `updated_at` are the timestamps maintained by `BaseEntity`;
`internal_id` is the `_internal_id` field set by `__post_init__`. -/
structure User where
  id : String
  name : String
  email : String
  role : String
  age : Option Int
  internal_id : String
  created_at : Int
  updated_at : Option Int
  deriving DecidableEq

/-- `User(...)` construction followed by `__post_init__` (at time `tNow`). -/
def pyUser (id name email role : String) (age : Option Int) (tNow : Int) : User :=
  { id := id, name := name, email := email, role := role, age := age,
    internal_id := "internal_" ++ id, created_at := tNow, updated_at := none }

def isLocalChar (c : Char) : Bool :=
  c.isAlphanum || c = Char.ofNat 46 || c = Char.ofNat 95 || c = Char.ofNat 37 ||
    c = Char.ofNat 43 || c = Char.ofNat 45

def isDomainChar (c : Char) : Bool :=
  c.isAlphanum || c = Char.ofNat 46 || c = Char.ofNat 45

/-- `User._validate_email`: Python
`re.match(r"^[a-zA-Z0-9._%+-]+@[a-zA-Z0-9.-]+\.[a-zA-Z]{2,}$", email)`.
The character classes exclude the at-sign, so a match forces exactly one
at-sign; the anchored `[a-zA-Z]{2,}$` can only match the maximal trailing
letter run, which must be preceded by a dot with a nonempty domain part
before it.  Python's `$` also matches just before one trailing newline. -/
def validate_email (email : String) : Bool :=
  let cs0 := email.toList
  let cs := if cs0.getLast? = some (Char.ofNat 10) then cs0.dropLast else cs0
  let atSign : Char := Char.ofNat 64
  (cs.count atSign = 1) &&
  (let lp := cs.takeWhile (fun c => c != atSign)
   let dp := (cs.dropWhile (fun c => c != atSign)).drop 1
   let rev := dp.reverse
   let tld := rev.takeWhile Char.isAlpha
   !lp.isEmpty && lp.all isLocalChar &&
     decide (2 ≤ tld.length) &&
     (match rev.drop tld.length with
      | c :: body => c = Char.ofNat 46 && !body.isEmpty && body.all isDomainChar
      | [] => false))

/-- `User.set_name`: rejects the empty string, updates the modification
timestamp. -/
def User.set_name (u : User) (name : String) (tNow : Int) : Except String User :=
  if name = "" then .error "Name cannot be empty"
  else .ok { u with name := name, updated_at := some tNow }

/-- `User.set_email`: validates the format, updates the modification
timestamp. -/
def User.set_email (u : User) (email : String) (tNow : Int) : Except String User :=
  if validate_email email then .ok { u with email := email, updated_at := some tNow }
  else .error "Invalid email format"

/-- `User.set_age`: rejects negative ages; does not touch `updated_at`. -/
def User.set_age (u : User) (age : Option Int) : Except String User :=
  match age with
  | some a => if a < 0 then .error "Age cannot be negative" else .ok { u with age := some a }
  | none => .ok { u with age := none }

/-- `User.to_dict()`: the dictionary payload the controller puts in envelopes. -/
structure UserDict where
  id : String
  name : String
  email : String
  role : String
  age : Option Int
  deriving DecidableEq

def User.to_dict (u : User) : UserDict :=
  { id := u.id, name := u.name, email := u.email, role := u.role, age := u.age }

/-! ### `demo/user_service.py` -/

inductive UserEvent where
  | USER_ADDED
  | USER_REMOVED
  | USER_UPDATED
  deriving DecidableEq

/-- A `UserListener`: its `on_user_event` either returns or raises. -/
def UserListener : Type := UserEvent → User → Except String Unit

/-- `UserService` state: the `_users` dict, the `__listeners` list
(in registration order) and the `max_users` bound. -/
structure UserService where
  users : List (String × User) := []
  listeners : List UserListener := []
  max_users : Nat := 1000

/-- The loop body of `UserService._notify_listeners`: returns the result of
each listener call in order, plus the error log produced by the
per-listener `try/except`. -/
def notifyEach (ls : List UserListener) (ev : UserEvent) (u : User) :
    List (Except String Unit) × List String :=
  match ls with
  | [] => ([], [])
  | l :: rest =>
    let r := l ev u
    let logHere := match r with
      | .ok _ => ([] : List String)
      | .error e => ["Error notifying listener: " ++ e]
    let tail := notifyEach rest ev u
    (r :: tail.1, logHere ++ tail.2)

/-- `UserService._notify_listeners`. -/
def UserService.notify_listeners (svc : UserService) (ev : UserEvent) (u : User) :
    List (Except String Unit) × List String :=
  notifyEach svc.listeners ev u

/-- `UserService.add_listener`: appends to the private listener list. -/
def UserService.add_listener (svc : UserService) (l : UserListener) : UserService :=
  { svc with listeners := svc.listeners ++ [l] }

/-- `UserService.add_user`.  The third component is the trace of
`_notify_listeners` invocations made by the call (the per-listener dispatch
semantics live in `notifyEach`). -/
def UserService.add_user (svc : UserService) (u : User) :
    (Except String Bool) × UserService × List (UserEvent × User) :=
  if (dictLookup svc.users u.id).isSome then (.ok false, svc, [])
  else if svc.users.length ≥ svc.max_users then (.error "Maximum users reached", svc, [])
  else
    (.ok true, { svc with users := dictInsert svc.users u.id u },
     [(UserEvent.USER_ADDED, u)])

/-- `UserService.find_user`. -/
def UserService.find_user (svc : UserService) (user_id : String) : Option User :=
  dictLookup svc.users user_id

/-- `UserService.remove_user`. -/
def UserService.remove_user (svc : UserService) (user_id : String) :
    Bool × UserService × List (UserEvent × User) :=
  match dictLookup svc.users user_id with
  | some u =>
    (true, { svc with users := dictErase svc.users user_id },
     [(UserEvent.USER_REMOVED, u)])
  | none => (false, svc, [])

/-- `UserService.get_all_users`: `list(self._users.values())`. -/
def UserService.get_all_users (svc : UserService) : List User :=
  svc.users.map Prod.snd

/-! ### `demo/api_controller.py` -/

/-- The `data` payloads the controller puts in `ApiResponse.data`. -/
structure ListUsersData where
  users : List UserDict
  total : Nat
  limit : Int
  offset : Int
  deriving DecidableEq

inductive Payload where
  | userData (d : UserDict)
  | listData (d : ListUsersData)
  deriving DecidableEq

/-- The `ApiResponse` dataclass; `timestamp` is the `datetime.utcnow()`
string filled in by `__post_init__`, threaded as a parameter `ts`. -/
structure ApiResponse where
  status : String
  message : String
  data : Option Payload
  timestamp : String
  deriving DecidableEq

/-- `ApiResponse.success`. -/
def ApiResponse.success (message : String) (data : Option Payload) (ts : String) : ApiResponse :=
  { status := "success", message := message, data := data, timestamp := ts }

/-- `ApiResponse.error`. -/
def ApiResponse.error (message : String) (data : Option Payload) (ts : String) : ApiResponse :=
  { status := "error", message := message, data := data, timestamp := ts }

/-- `CreateUserRequest` dict; fields read with `.get`, so optional here. -/
structure CreateUserRequest where
  name : Option String
  email : Option String
  role : Option String

/-- `UpdateUserRequest` dict (`total=False`: every key optional). -/
structure UpdateUserRequest where
  name : Option String := none
  email : Option String := none
  role : Option String := none
  age : Option Int := none

/-- Python truthiness of `request.get(field)`: present and nonempty. -/
def truthy : Option String → Bool
  | none => false
  | some s => s ≠ ""

namespace ApiController

/-- `ApiController.create_user`.  `genId` stands for the random
`uuid.uuid4().hex[:8]` in `_generate_user_id`; `tNow` is the
`datetime.now()` reading inside `User.__post_init__`.  The
`try/except Exception` converts the registry's raised error into an
`"Internal error: ..."` envelope. -/
def create_user (svc : UserService) (genId : String) (req : CreateUserRequest)
    (tNow : Int) (ts : String) : ApiResponse × UserService :=
  if !(truthy req.name) || !(truthy req.email) then
    (ApiResponse.error "Name and email are required" none ts, svc)
  else
    let user := pyUser ("user_" ++ genId) (req.name.getD "") (req.email.getD "")
      (req.role.getD "user") none tNow
    match svc.add_user user with
    | (.ok true, svc1, _) =>
      (ApiResponse.success "User created" (some (.userData user.to_dict)) ts, svc1)
    | (.ok false, svc1, _) => (ApiResponse.error "User already exists" none ts, svc1)
    | (.error e, svc1, _) => (ApiResponse.error ("Internal error: " ++ e) none ts, svc1)

/-- `ApiController.get_user` (no `try/except`; `find_user` cannot raise). -/
def get_user (svc : UserService) (user_id : String) (ts : String) : ApiResponse :=
  match svc.find_user user_id with
  | some u => ApiResponse.success "User found" (some (.userData u.to_dict)) ts
  | none => ApiResponse.error "User not found" none ts

/-- The field-update block of `ApiController.update_user`: `name`, `email`
and `age` go through the `User` setters, `role` is assigned directly.
Returns the outcome together with the user object as mutated so far
(Python mutates the registry's record in place, so updates made before a
setter raises remain visible). -/
def applyUpdates (u : User) (req : UpdateUserRequest) (tNow : Int) :
    (Except String Unit) × User :=
  let step1 : (Except String Unit) × User :=
    match req.name with
    | none => (.ok (), u)
    | some n =>
      match u.set_name n tNow with
      | .ok u1 => (.ok (), u1)
      | .error e => (.error e, u)
  match step1 with
  | (.error e, u1) => (.error e, u1)
  | (.ok _, u1) =>
    let step2 : (Except String Unit) × User :=
      match req.email with
      | none => (.ok (), u1)
      | some em =>
        match u1.set_email em tNow with
        | .ok u2 => (.ok (), u2)
        | .error e => (.error e, u1)
    match step2 with
    | (.error e, u2) => (.error e, u2)
    | (.ok _, u2) =>
      let u3 := match req.role with
        | none => u2
        | some r => { u2 with role := r }
      match req.age with
      | none => (.ok (), u3)
      | some a =>
        match u3.set_age (some a) with
        | .ok u4 => (.ok (), u4)
        | .error e => (.error e, u3)

/-- `ApiController.update_user` (no `try/except`: a setter's `ValueError`
escapes to the caller, which the `.error` result models). -/
def update_user (svc : UserService) (user_id : String) (req : UpdateUserRequest)
    (tNow : Int) (ts : String) : (Except String ApiResponse) × UserService :=
  match svc.find_user user_id with
  | none => (.ok (ApiResponse.error "User not found" none ts), svc)
  | some u =>
    let r := applyUpdates u req tNow
    let svc1 := { svc with users := dictInsert svc.users user_id r.2 }
    match r.1 with
    | .error e => (.error e, svc1)
    | .ok _ =>
      (.ok (ApiResponse.success "User updated" (some (.userData r.2.to_dict)) ts), svc1)

/-- `ApiController.delete_user`. -/
def delete_user (svc : UserService) (user_id : String) (ts : String) :
    ApiResponse × UserService × List (UserEvent × User) :=
  let r := svc.remove_user user_id
  if r.1 then (ApiResponse.success "User deleted" none ts, r.2.1, r.2.2)
  else (ApiResponse.error "User not found" none ts, r.2.1, r.2.2)

/-- Python list slicing `xs[start:stop]`: negative indices count from the
end, then both bounds are clamped into `[0, len]`. -/
def pySlice {β : Type} (xs : List β) (start stop : Int) : List β :=
  let n : Int := xs.length
  let adj : Int → Nat := fun i => if i < 0 then (n + i).toNat else min i.toNat xs.length
  ((xs.drop (adj start)).take (adj stop - adj start))

/-- The role filter of `list_users`: applied only when `role` is truthy. -/
def roleFiltered (svc : UserService) (role : Option String) : List User :=
  let users := svc.get_all_users
  match role with
  | some r => if r ≠ "" then users.filter (fun u => u.role = r) else users
  | none => users

/-- `ApiController.list_users`: role filter, then the raw slice
`users[offset:offset + limit]` — no clamping of `limit`/`offset` here. -/
def list_users (svc : UserService) (role : Option String) (limit offset : Int)
    (ts : String) : ApiResponse :=
  let users := roleFiltered svc role
  let paginated := pySlice users offset (offset + limit)
  ApiResponse.success ("Found " ++ toString paginated.length ++ " users")
    (some (.listData
      { users := paginated.map User.to_dict, total := users.length,
        limit := limit, offset := offset })) ts

end ApiController

/-- Module-level `parse_pagination_params`, over already-parsed integer
query parameters (`.get` defaults `100` and `0`): clamps `limit` into
`[1, 1000]` and `offset` to `≥ 0`. -/
def parse_pagination_params (limitParam offsetParam : Option Int) : Int × Int :=
  let limit := limitParam.getD 100
  let offset := offsetParam.getD 0
  (min (max 1 limit) 1000, max 0 offset)

/-! ### The update a request would perform according to the spec

`specUpdatedUser` is written from the spec's words for the update operation
("applies exactly the fields present in the request ...; fields absent from
the request are left unchanged"), to be compared with the behaviour of
`ApiController.update_user` as embedded from the source. -/

def specUpdatedUser (u : User) (req : UpdateUserRequest) (tNow : Int) : User :=
  { u with
    name := req.name.getD u.name,
    email := req.email.getD u.email,
    role := req.role.getD u.role,
    age := match req.age with
      | some a => some a
      | none => u.age,
    updated_at := if req.name.isSome || req.email.isSome then some tNow else u.updated_at }

/-! ### Concrete fixtures used by witnesses and counterexamples -/

/-- A processor configuration over `Nat` inputs with no validator. -/
def cfg0 : Config Nat :=
  { strRep := toString, pyHash := fun s => (s.length : Int), md5hex := id,
    validator := none, max_cache_size := 1000 }

/-- The same configuration with a validator that rejects every input. -/
def cfgRej : Config Nat :=
  { cfg0 with
    validator := some { validate := fun _ => false, get_validation_errors := fun _ => ["bad"] } }

/-- The same configuration with capacity 1. -/
def cfgCap1 : Config Nat := { cfg0 with max_cache_size := 1 }

/-- The entry `process cfg0 0 0 7` caches. -/
def entry7 : ProcessedData Nat :=
  { id := "data_1", original_data := 7, processed_data := "processed_7",
    processing_time := 0, timestamp := 0 }

/-- A cached entry with timestamp 5. -/
def dA : ProcessedData Nat :=
  { id := "a", original_data := 1, processed_data := "p",
    processing_time := 0, timestamp := 5 }

/-- A cached entry with timestamp 3 (the oldest of the fixtures). -/
def dB : ProcessedData Nat :=
  { id := "b", original_data := 2, processed_data := "p",
    processing_time := 0, timestamp := 3 }

/-- A new entry to insert, with timestamp 9. -/
def dC : ProcessedData Nat :=
  { id := "c", original_data := 3, processed_data := "p",
    processing_time := 0, timestamp := 9 }

/-- A two-entry cache whose second entry is the oldest. -/
def cacheAB : List (String × ProcessedData Nat) := [("a", dA), ("b", dB)]

/-- The processor state after `process cfg0 0 0 7` on the empty state. -/
def state7 : ProcState Nat :=
  { cache := [("data_1", entry7)],
    stats := { hits := 0, misses := 1, evictions := 0, size := 0 },
    processing_count := 1, validateCalls := 0, doProcessingCalls := 1 }

/-- A registered user record. -/
def u1 : User :=
  { id := "u1", name := "Alice", email := "a@b.co", role := "user", age := none,
    internal_id := "internal_u1", created_at := 0, updated_at := none }

/-- A registry holding just `u1`, with no listeners. -/
def svcOne : UserService := { users := [("u1", u1)], listeners := [], max_users := 1000 }

/-- A full update request (all four fields present and valid — except that
`role` needs no validity at all). -/
def reqBob : UpdateUserRequest :=
  { name := some "Bob", email := some "b@c.de", role := some "admin", age := some 30 }

/-- An empty registry with capacity 0. -/
def svcFull : UserService := { users := [], listeners := [], max_users := 0 }

/-- An empty registry with the default capacity. -/
def svcEmpty : UserService := { users := [], listeners := [], max_users := 1000 }

/-! ## Lemmas about the dictionary model -/

theorem dictLookup_dictInsert_self {β : Type} (m : List (String × β)) (k : String) (v : β) :
    dictLookup (dictInsert m k v) k = some v := by
  induction m with
  | nil => simp [dictInsert, dictLookup]
  | cons hd tl ih =>
    obtain ⟨k1, w⟩ := hd
    by_cases h : k1 = k <;> simp [dictInsert, dictLookup, h, ih]

theorem dictLookup_eq_none_iff {β : Type} (m : List (String × β)) (k : String) :
    dictLookup m k = none ↔ k ∉ m.map Prod.fst := by
  induction m with
  | nil => simp [dictLookup]
  | cons hd tl ih =>
    obtain ⟨k1, w⟩ := hd
    by_cases h : k1 = k
    · subst h
      simp [dictLookup]
    · simp [dictLookup, h, ih]
      exact fun _ hk => h hk.symm

theorem dictInsert_eq_append {β : Type} (m : List (String × β)) (k : String) (v : β)
    (h : k ∉ m.map Prod.fst) : dictInsert m k v = m ++ [(k, v)] := by
  induction m with
  | nil => simp [dictInsert]
  | cons hd tl ih =>
    obtain ⟨k1, w⟩ := hd
    have h1 : k1 ≠ k := fun hk => h (by simp [hk])
    have h2 : k ∉ tl.map Prod.fst := fun hk => h (by simp [hk])
    simp [dictInsert, h1, ih h2]

theorem dictLookup_of_mem_of_nodup {β : Type} {m : List (String × β)} {k : String} {v : β}
    (hn : (m.map Prod.fst).Nodup) (hm : (k, v) ∈ m) : dictLookup m k = some v := by
  induction m with
  | nil => simp at hm
  | cons hd tl ih =>
    obtain ⟨k1, w⟩ := hd
    rw [List.map_cons] at hn
    obtain ⟨hn1, hn2⟩ := List.nodup_cons.mp hn
    rcases List.mem_cons.mp hm with heq | htl
    · cases heq
      simp [dictLookup]
    · have hkmem : k ∈ tl.map Prod.fst := List.mem_map.mpr ⟨(k, v), htl, rfl⟩
      have hne : k1 ≠ k := fun hk => hn1 (by rw [hk]; exact hkmem)
      simp [dictLookup, hne, ih hn2 htl]

theorem dictErase_length_of_mem {β : Type} {m : List (String × β)} {k : String}
    (h : k ∈ m.map Prod.fst) : (dictErase m k).length + 1 = m.length := by
  induction m with
  | nil => simp at h
  | cons hd tl ih =>
    obtain ⟨k1, w⟩ := hd
    by_cases hk : k1 = k
    · simp [dictErase, hk]
    · simp only [List.map_cons, List.mem_cons] at h
      rcases h with h | h
      · exact (hk h.symm).elim
      · simp [dictErase, hk, ih h]

theorem mem_map_fst_dictErase {β : Type} {m : List (String × β)} {k k1 : String}
    (h : k ∈ (dictErase m k1).map Prod.fst) : k ∈ m.map Prod.fst := by
  induction m with
  | nil => simp [dictErase] at h
  | cons hd tl ih =>
    obtain ⟨k2, w⟩ := hd
    by_cases hk : k2 = k1
    · simp only [dictErase, if_pos hk] at h
      simp [h]
    · simp only [dictErase, if_neg hk, List.map_cons, List.mem_cons] at h ⊢
      rcases h with h | h
      · exact Or.inl h
      · exact Or.inr (ih h)

/-! ## Lemmas about the oldest-entry fold -/

theorem minFold_le {α : Type} (b : String × Int) (m : List (String × ProcessedData α)) :
    (minFold b m).2 ≤ b.2 ∧ ∀ e ∈ m, (minFold b m).2 ≤ e.2.timestamp := by
  induction m generalizing b with
  | nil => simp [minFold]
  | cons hd tl ih =>
    obtain ⟨k, d⟩ := hd
    simp only [minFold]
    by_cases h : d.timestamp < b.2
    · simp only [if_pos h]
      obtain ⟨h1, h2⟩ := ih (k, d.timestamp)
      refine ⟨le_of_lt (lt_of_le_of_lt h1 h), ?_⟩
      intro e he
      rcases List.mem_cons.mp he with he | he
      · exact he ▸ h1
      · exact h2 e he
    · simp only [if_neg h]
      obtain ⟨h1, h2⟩ := ih b
      refine ⟨h1, ?_⟩
      intro e he
      rcases List.mem_cons.mp he with he | he
      · exact he ▸ le_trans h1 (le_of_not_lt h)
      · exact h2 e he

theorem minFold_mem {α : Type} (b : String × Int) (m : List (String × ProcessedData α)) :
    minFold b m = b ∨ minFold b m ∈ m.map (fun e => (e.1, e.2.timestamp)) := by
  induction m generalizing b with
  | nil => simp [minFold]
  | cons hd tl ih =>
    obtain ⟨k, d⟩ := hd
    simp only [minFold, List.map_cons, List.mem_cons]
    by_cases h : d.timestamp < b.2
    · simp only [if_pos h]
      rcases ih (k, d.timestamp) with h1 | h1
      · exact Or.inr (Or.inl h1)
      · exact Or.inr (Or.inr h1)
    · simp only [if_neg h]
      rcases ih b with h1 | h1
      · exact Or.inl h1
      · exact Or.inr (Or.inr h1)

/-- The key picked by `oldestKey` is bound in the cache to an entry whose
timestamp is minimal among all entries. -/
theorem oldestKey_spec {α : Type} {cache : List (String × ProcessedData α)}
    (hn : (cache.map Prod.fst).Nodup) (hne : cache ≠ []) :
    ∃ k0 d0, oldestKey cache = some k0 ∧ dictLookup cache k0 = some d0 ∧
      ∀ e ∈ cache, d0.timestamp ≤ e.2.timestamp := by
  match cache, hne with
  | (k, d) :: rest, _ =>
    have hmem : minFold (k, d.timestamp) rest ∈
        ((k, d) :: rest).map (fun e => (e.1, e.2.timestamp)) := by
      rcases minFold_mem (k, d.timestamp) rest with h | h
      · rw [h]; simp
      · simp [h]
    obtain ⟨e0, he0, heq⟩ := List.mem_map.mp hmem
    obtain ⟨h1, h2⟩ := minFold_le (k, d.timestamp) rest
    have hfst : e0.1 = (minFold (k, d.timestamp) rest).1 := congrArg Prod.fst heq
    have hsnd : e0.2.timestamp = (minFold (k, d.timestamp) rest).2 := congrArg Prod.snd heq
    refine ⟨e0.1, e0.2, ?_, ?_, ?_⟩
    · simp only [oldestKey]
      rw [hfst]
    · exact dictLookup_of_mem_of_nodup hn he0
    · intro e he
      rw [hsnd]
      rcases List.mem_cons.mp he with he | he
      · exact he ▸ h1
      · exact h2 e he

/-! ## C1 -/

/-- C1: when a fresh entry is inserted into a cache already holding at least
`max_cache_size` entries, `_add_to_cache` removes exactly one entry — one
whose creation timestamp is minimal among all cached entries — increments the
eviction counter by one, and keeps every other entry (the result is the old
cache minus that single entry, plus the new one). -/
theorem c1_insert_at_capacity_evicts_single_oldest {α : Type}
    (max_cache_size : Nat) (key : String) (d : ProcessedData α)
    (cache : List (String × ProcessedData α)) (stats : CacheStats)
    (hnd : (cache.map Prod.fst).Nodup)
    (hne : cache ≠ [])
    (hfull : cache.length ≥ max_cache_size)
    (hfresh : dictLookup cache key = none) :
    ∃ k0 d0, dictLookup cache k0 = some d0 ∧
      (∀ e ∈ cache, d0.timestamp ≤ e.2.timestamp) ∧
      (dictErase cache k0).length + 1 = cache.length ∧
      add_to_cache max_cache_size key d cache stats =
        .ok (dictErase cache k0 ++ [(key, d)],
             { stats with evictions := stats.evictions + 1 }) := by
  obtain ⟨k0, d0, hok, hlk, hmin⟩ := oldestKey_spec hnd hne
  have hk0mem : k0 ∈ cache.map Prod.fst := by
    by_contra hmem
    have hnone := (dictLookup_eq_none_iff cache k0).mpr hmem
    rw [hnone] at hlk
    exact Option.noConfusion hlk
  have hkey : key ∉ (dictErase cache k0).map Prod.fst := by
    intro hmem
    exact (dictLookup_eq_none_iff cache key).mp hfresh (mem_map_fst_dictErase hmem)
  refine ⟨k0, d0, hlk, hmin, dictErase_length_of_mem hk0mem, ?_⟩
  simp only [add_to_cache, if_pos hfull, hok]
  rw [dictInsert_eq_append _ _ _ hkey]

/-- Witness for C1 at a concrete capacity-2 cache. -/
theorem c1_witness :
    ∃ k0 d0,
      dictLookup cacheAB k0 = some d0 ∧
      (∀ e ∈ cacheAB, d0.timestamp ≤ e.2.timestamp) ∧
      (dictErase cacheAB k0).length + 1 = cacheAB.length ∧
      add_to_cache 2 "c" dC cacheAB {} =
        .ok (dictErase cacheAB k0 ++ [("c", dC)], { evictions := 1 }) :=
  c1_insert_at_capacity_evicts_single_oldest 2 "c" dC cacheAB {}
    (by decide) (by decide) (by decide) (by decide)

/-! ## C2 -/

/-- After a successful `_add_to_cache`, the inserted entry is found under its
key. -/
theorem add_to_cache_ok_lookup {α : Type} {max_cache_size : Nat} {key : String}
    {d : ProcessedData α} {cache cache1 : List (String × ProcessedData α)}
    {stats stats1 : CacheStats}
    (h : add_to_cache max_cache_size key d cache stats = .ok (cache1, stats1)) :
    dictLookup cache1 key = some d := by
  simp only [add_to_cache] at h
  split at h
  · split at h
    · exact Except.noConfusion h
    · obtain ⟨h1, h2⟩ := Prod.mk.inj (Except.ok.inj h)
      rw [← h1]
      exact dictLookup_dictInsert_self _ _ _
  · obtain ⟨h1, h2⟩ := Prod.mk.inj (Except.ok.inj h)
    rw [← h1]
    exact dictLookup_dictInsert_self _ _ _

/-- After a successful `finishProcess`, the returned entry is cached under
the computed key. -/
theorem finishProcess_ok_lookup {α : Type} {cfg : Config α} {tNow elapsed : Int} {x : α}
    {key : String} {s s1 : ProcState α} {d : ProcessedData α}
    (h : finishProcess cfg tNow elapsed x key s = (.ok d, s1)) :
    dictLookup s1.cache key = some d := by
  simp only [finishProcess] at h
  split at h
  · exact Except.noConfusion (congrArg Prod.fst h)
  · rename_i cache1 stats1 hadd
    obtain ⟨h1, h2⟩ := Prod.mk.inj h
    have hd := Except.ok.inj h1
    rw [← h2]
    show dictLookup cache1 key = some d
    exact hd ▸ add_to_cache_ok_lookup hadd

/-- After a successful `process` call, the returned entry is cached under the
input's key. -/
theorem process_ok_lookup {α : Type} {cfg : Config α} {tNow elapsed : Int} {x : α}
    {s s1 : ProcState α} {d : ProcessedData α}
    (h : process cfg tNow elapsed x s = (.ok d, s1)) :
    dictLookup s1.cache (get_cache_key cfg x) = some d := by
  simp only [process] at h
  split at h
  · rename_i d0 hl
    obtain ⟨h1, h2⟩ := Prod.mk.inj h
    have hd := Except.ok.inj h1
    rw [← h2]
    show dictLookup s.cache (get_cache_key cfg x) = some d
    rw [hl, hd]
  · rename_i hl
    split at h
    · rename_i v hv
      split at h
      · exact finishProcess_ok_lookup h
      · exact Except.noConfusion (congrArg Prod.fst h)
    · exact finishProcess_ok_lookup h

/-- C2 (amended): if a `process` call on input `x` returns successfully, then
a second `process` call with the same input is a cache hit: it returns the
same entry unchanged, increments the hit counter by one, and leaves the miss
counter, the cache, the validator-call count and the `_do_processing`-call
count unchanged. -/
theorem c2_second_call_hits {α : Type} (cfg : Config α) (x : α) (s : ProcState α)
    (t1 e1 t2 e2 : Int) (d : ProcessedData α) (s1 : ProcState α)
    (h : process cfg t1 e1 x s = (.ok d, s1)) :
    process cfg t2 e2 x s1 =
      (.ok d, { s1 with
          processing_count := s1.processing_count + 1,
          stats := { s1.stats with hits := s1.stats.hits + 1 } }) := by
  have hkey := process_ok_lookup h
  simp [process, hkey]

/-- Witness for C2: processing `7` twice on an empty processor; the first
call misses and stores `entry7` (reaching state `state7`), the second call
is a hit returning that entry. -/
theorem c2_witness :
    process cfg0 0 0 7 ({} : ProcState Nat) = (.ok entry7, state7) ∧
    process cfg0 1 1 7 state7 =
      (.ok entry7, { state7 with
          processing_count := state7.processing_count + 1,
          stats := { state7.stats with hits := state7.stats.hits + 1 } }) :=
  ⟨rfl, c2_second_call_hits cfg0 7 {} 0 0 1 1 entry7 state7 rfl⟩

/-- Counterexample to C2 as stated: with an injected validator that rejects
the input, the first call raises, nothing is cached, and the second call with
the same input is again a miss (miss counter becomes 2, hit counter stays 0),
raising again instead of returning a cached entry. -/
theorem c2_counterexample :
    ((process cfgRej 1 0 7 ((process cfgRej 0 0 7 ({} : ProcState Nat)).2)).2).stats.hits = 0 ∧
    ((process cfgRej 1 0 7 ((process cfgRej 0 0 7 ({} : ProcState Nat)).2)).2).stats.misses = 2 ∧
    (process cfgRej 1 0 7 ((process cfgRej 0 0 7 ({} : ProcState Nat)).2)).1 =
      .error ("Invalid data: " ++ pyReprList ["bad"]) :=
  ⟨rfl, rfl, rfl⟩

/-! ## C3 -/

/-- Deleting a list of keys that avoids the head entry keeps the head in
place. -/
theorem deleteKeys_cons_not_mem {α : Type} (ks : List String) (k : String)
    (d : ProcessedData α) (m : List (String × ProcessedData α)) (st : CacheStats)
    (h : k ∉ ks) :
    deleteKeys ks ((k, d) :: m) st =
      ((k, d) :: (deleteKeys ks m st).1, (deleteKeys ks m st).2) := by
  induction ks generalizing m st with
  | nil => simp [deleteKeys]
  | cons k1 ks ih =>
    have hne : ¬(k = k1) := fun he => h (by simp [he])
    have hks : k ∉ ks := fun he => h (by simp [he])
    simp only [deleteKeys, dictErase, if_neg hne]
    exact ih _ _ hks

/-- The expired-keys deletion loop, run on the keys selected by a predicate
from a duplicate-free cache, removes exactly the selected entries and bumps
the eviction counter once per selected entry. -/
theorem deleteKeys_filter {α : Type} (p : String × ProcessedData α → Bool)
    (cache : List (String × ProcessedData α)) (stats : CacheStats)
    (hnd : (cache.map Prod.fst).Nodup) :
    deleteKeys ((cache.filter p).map Prod.fst) cache stats =
      (cache.filter (fun e => !(p e)),
       { stats with evictions := stats.evictions + (cache.filter p).length }) := by
  induction cache generalizing stats with
  | nil => cases stats; simp [deleteKeys]
  | cons hd tl ih =>
    obtain ⟨k, d⟩ := hd
    rw [List.map_cons] at hnd
    obtain ⟨hk, hnd2⟩ := List.nodup_cons.mp hnd
    by_cases hp : p (k, d)
    · simp only [List.filter_cons, hp, if_true, List.map_cons, deleteKeys, dictErase, if_pos rfl]
      rw [ih _ hnd2]
      have hb : (!p (k, d)) = false := by simp [hp]
      simp only [List.filter_cons, hb, Bool.false_eq_true, if_false, List.length_cons]
      refine Prod.ext rfl ?_
      simp only [CacheStats.mk.injEq]
      exact ⟨trivial, trivial, by omega, trivial⟩
    · have hpb : p (k, d) = false := by simpa using hp
      have hkE : k ∉ (tl.filter p).map Prod.fst := by
        intro hmem
        obtain ⟨e, he, hfst⟩ := List.mem_map.mp hmem
        exact hk (List.mem_map.mpr ⟨e, List.mem_of_mem_filter he, hfst⟩)
      simp only [List.filter_cons, hpb, Bool.false_eq_true, if_false]
      rw [deleteKeys_cons_not_mem _ _ _ _ _ hkE, ih _ hnd2]
      have hb : (!p (k, d)) = true := by simp [hpb]
      simp [List.filter_cons, hb]

/-- C3: `remove_expired(ttl)` removes from the cache exactly those entries
whose age (now minus creation timestamp) exceeds `ttl`, increments the
eviction counter once per entry removed, leaves all non-expired entries in
place, and returns the number of entries removed. -/
theorem c3_remove_expired_exact {α : Type} (now ttl_seconds : Int)
    (cache : List (String × ProcessedData α)) (stats : CacheStats)
    (hnd : (cache.map Prod.fst).Nodup) :
    remove_expired now ttl_seconds cache stats =
      ((cache.filter (fun e => e.2.is_expired now ttl_seconds)).length,
       cache.filter (fun e => !(e.2.is_expired now ttl_seconds)),
       { stats with evictions :=
           stats.evictions +
             (cache.filter (fun e => e.2.is_expired now ttl_seconds)).length }) := by
  simp only [remove_expired]
  rw [deleteKeys_filter _ _ _ hnd]
  simp

/-- Witness for C3: at `now = 100` with `ttl = 96`, entry `"b"` (age 97) is
expired and removed, entry `"a"` (age 95) stays. -/
theorem c3_witness :
    remove_expired 100 96 cacheAB {} = (1, [("a", dA)], { evictions := 1 }) := by
  have h := c3_remove_expired_exact 100 96 cacheAB {} (by decide)
  simpa [cacheAB, dA, dB, ProcessedData.is_expired, ProcessedData.age_seconds] using h

/-! ## C10 -/

/-- C10 (amended): a cache hit in `process` performs no expiry check — when
the input's key is cached, `process` returns the stored entry and increments
the hit counter even if that entry's age already exceeds the time-to-live,
and the cache (including the expired entry) is left unchanged. -/
theorem c10_hit_ignores_expiry {α : Type} (cfg : Config α) (x : α) (s : ProcState α)
    (tNow elapsed ttl now : Int) (d : ProcessedData α)
    (hkey : dictLookup s.cache (get_cache_key cfg x) = some d)
    (hexp : d.is_expired now ttl = true) :
    d.is_expired now ttl = true ∧
    process cfg tNow elapsed x s =
      (.ok d, { s with
          processing_count := s.processing_count + 1,
          stats := { s.stats with hits := s.stats.hits + 1 } }) :=
  ⟨hexp, by simp [process, hkey]⟩

/-- Witness for C10: `entry7` is expired at time 100 under a TTL of 10, yet
processing `7` again hits and returns it unchanged. -/
theorem c10_witness :
    entry7.is_expired 100 10 = true ∧
    process cfg0 200 0 7 state7 =
      (.ok entry7, { state7 with
          processing_count := state7.processing_count + 1,
          stats := { state7.stats with hits := state7.stats.hits + 1 } }) :=
  c10_hit_ignores_expiry cfg0 7 state7 200 0 10 100 entry7 rfl rfl

/-- Counterexample to C10's final clause ("expired entries are ... never
removed by `process` itself"): with capacity 1, processing a fresh input
evicts the cached entry `entry7`, which is expired at time 100 under a TTL
of 10 — so `process` does remove an expired entry (by capacity eviction). -/
theorem c10_counterexample :
    entry7.is_expired 100 10 = true ∧
    dictLookup state7.cache "data_1" = some entry7 ∧
    dictLookup ((process cfgCap1 100 0 77 state7).2).cache "data_1" = none :=
  ⟨rfl, rfl, rfl⟩

/-! ## C4 -/

/-- C4: `add_user` returns `False` and leaves the registry unchanged on a
duplicate identifier; raises `"Maximum users reached"` with the registry
unchanged at capacity; otherwise inserts the record under its identifier,
fires one `"added"` notification, and returns `True`. -/
theorem c4_add_user_spec (svc : UserService) (u : User) :
    ((dictLookup svc.users u.id).isSome = true →
      svc.add_user u = (.ok false, svc, [])) ∧
    (dictLookup svc.users u.id = none → svc.users.length ≥ svc.max_users →
      svc.add_user u = (.error "Maximum users reached", svc, [])) ∧
    (dictLookup svc.users u.id = none → svc.users.length < svc.max_users →
      svc.add_user u =
        (.ok true, { svc with users := dictInsert svc.users u.id u },
         [(UserEvent.USER_ADDED, u)]) ∧
      dictLookup (dictInsert svc.users u.id u) u.id = some u) := by
  refine ⟨?_, ?_, ?_⟩
  · intro h
    simp [UserService.add_user, h]
  · intro h1 h2
    simp [UserService.add_user, h1, h2]
  · intro h1 h2
    refine ⟨?_, dictLookup_dictInsert_self _ _ _⟩
    simp [UserService.add_user, h1, not_le.mpr h2]

/-- Witness for C4, exercising all three branches on concrete registries. -/
theorem c4_witness :
    svcOne.add_user u1 = (.ok false, svcOne, []) ∧
    svcFull.add_user u1 = (.error "Maximum users reached", svcFull, []) ∧
    (svcEmpty.add_user u1 =
        (.ok true, { svcEmpty with users := dictInsert svcEmpty.users u1.id u1 },
         [(UserEvent.USER_ADDED, u1)]) ∧
      dictLookup (dictInsert svcEmpty.users u1.id u1) u1.id = some u1) :=
  ⟨(c4_add_user_spec svcOne u1).1 rfl,
   (c4_add_user_spec svcFull u1).2.1 rfl (by decide),
   (c4_add_user_spec svcEmpty u1).2.2 rfl (by decide)⟩

/-! ## C8 -/

/-- Erasing a key from a duplicate-free dict removes its binding. -/
theorem dictLookup_dictErase_self {β : Type} {m : List (String × β)} {k : String}
    (hn : (m.map Prod.fst).Nodup) : dictLookup (dictErase m k) k = none := by
  induction m with
  | nil => simp [dictErase, dictLookup]
  | cons hd tl ih =>
    obtain ⟨k1, w⟩ := hd
    rw [List.map_cons] at hn
    obtain ⟨hn1, hn2⟩ := List.nodup_cons.mp hn
    by_cases hk : k1 = k
    · subst hk
      simp only [dictErase, if_pos rfl]
      exact (dictLookup_eq_none_iff tl k1).mpr hn1
    · simp [dictErase, dictLookup, hk, ih hn2]

/-- C8: `remove_user` on an absent identifier returns `False`, changes
nothing and fires no notification; on a present identifier it deletes that
record (the identifier no longer resolves), fires one `"removed"`
notification carrying the removed record, and returns `True`. -/
theorem c8_remove_user_spec (svc : UserService) (uid : String) :
    (dictLookup svc.users uid = none → svc.remove_user uid = (false, svc, [])) ∧
    (∀ u, dictLookup svc.users uid = some u →
      svc.remove_user uid =
        (true, { svc with users := dictErase svc.users uid },
         [(UserEvent.USER_REMOVED, u)]) ∧
      ((svc.users.map Prod.fst).Nodup →
        dictLookup (dictErase svc.users uid) uid = none)) := by
  refine ⟨?_, ?_⟩
  · intro h
    simp [UserService.remove_user, h]
  · intro u h
    exact ⟨by simp [UserService.remove_user, h], fun hnd => dictLookup_dictErase_self hnd⟩

/-- Witness for C8: removing an absent then a present identifier. -/
theorem c8_witness :
    svcOne.remove_user "nobody" = (false, svcOne, []) ∧
    (svcOne.remove_user "u1" =
        (true, { svcOne with users := dictErase svcOne.users "u1" },
         [(UserEvent.USER_REMOVED, u1)]) ∧
      dictLookup (dictErase svcOne.users "u1") "u1" = none) :=
  ⟨(c8_remove_user_spec svcOne "nobody").1 rfl,
   ((c8_remove_user_spec svcOne "u1").2 u1 rfl).1,
   ((c8_remove_user_spec svcOne "u1").2 u1 rfl).2 (by decide)⟩

/-! ## C9 -/

/-- C9: `_notify_listeners` calls every registered listener exactly once, in
registration order (`add_listener` appends, and the call results are one per
listener in list order); a raising listener contributes one log entry, is not
propagated (the loop's result is total), and the remaining listeners are
still called. -/
theorem c9_listener_notification (ls : List UserListener) (ev : UserEvent) (u : User)
    (svc : UserService) (l : UserListener) :
    (notifyEach ls ev u).1 = ls.map (fun f => f ev u) ∧
    (notifyEach ls ev u).2 = ls.filterMap (fun f =>
      match f ev u with
      | .ok _ => none
      | .error e => some ("Error notifying listener: " ++ e)) ∧
    (svc.add_listener l).listeners = svc.listeners ++ [l] := by
  refine ⟨?_, ?_, rfl⟩
  · induction ls with
    | nil => rfl
    | cons f rest ih => simp [notifyEach, ih]
  · induction ls with
    | nil => rfl
    | cons f rest ih =>
      simp only [notifyEach, List.filterMap_cons]
      cases hr : f ev u with
      | ok v => simp [hr, ih]
      | error e => simp [hr, ih]

/-! ## C5 -/

/-- C5 (amended): the creation operation's `try/except` converts the
registry's capacity exception into an error envelope carrying the
exception's message, leaving the registry unchanged — it never escapes as a
raw fault. -/
theorem c5_create_user_converts_registry_error (svc : UserService) (genId : String)
    (req : CreateUserRequest) (tNow : Int) (ts : String)
    (hname : truthy req.name = true) (hemail : truthy req.email = true)
    (hfresh : dictLookup svc.users ("user_" ++ genId) = none)
    (hfull : svc.users.length ≥ svc.max_users) :
    ApiController.create_user svc genId req tNow ts =
      (ApiResponse.error "Internal error: Maximum users reached" none ts, svc) := by
  simp only [ApiController.create_user, hname, hemail, Bool.not_true, Bool.or_self,
    Bool.false_eq_true, if_false, pyUser]
  simp [UserService.add_user, hfresh, hfull]

/-- Witness for C5: creating a user on a registry already at its capacity
bound yields the `"Internal error: ..."` envelope. -/
theorem c5_witness :
    ApiController.create_user svcFull "x"
        { name := some "A", email := some "a@b.co", role := none } 0 "t" =
      (ApiResponse.error "Internal error: Maximum users reached" none "t", svcFull) :=
  c5_create_user_converts_registry_error svcFull "x"
    { name := some "A", email := some "a@b.co", role := none } 0 "t"
    rfl rfl rfl (by decide)

/-- Counterexample to C5 as stated: the update operation has no exception
handler, so the `ValueError` raised by `User.set_name` on an empty name
escapes `update_user` as a raw fault instead of an error envelope. -/
theorem c5_counterexample :
    (ApiController.update_user svcOne "u1" { name := some "" } 5 "t").1 =
      .error "Name cannot be empty" := rfl

/-! ## C6 -/

/-- For non-negative bounds, the Python slice `xs[a:b]` is the plain
drop/take window. -/
theorem pySlice_nonneg {β : Type} (xs : List β) (a b : Int) (ha : 0 ≤ a) (hb : 0 ≤ b) :
    ApiController.pySlice xs a b = (xs.drop a.toNat).take (b.toNat - a.toNat) := by
  simp only [ApiController.pySlice, if_neg (not_lt.mpr ha), if_neg (not_lt.mpr hb)]
  by_cases hlen : a.toNat ≤ xs.length
  · rw [min_eq_left hlen]
    by_cases hblen : b.toNat ≤ xs.length
    · rw [min_eq_left hblen]
    · rw [min_eq_right (le_of_not_le hblen)]
      have h1 : (xs.drop a.toNat).length = xs.length - a.toNat := List.length_drop _ _
      rw [List.take_of_length_le (le_of_eq h1),
        List.take_of_length_le (by rw [h1]; omega)]
  · have h1 : xs.length ≤ a.toNat := le_of_not_le hlen
    rw [min_eq_right h1, List.drop_length, List.drop_eq_nil_of_le h1]
    simp

/-- C6 (amended): clamping happens in `parse_pagination_params` — its limit
always lands in `[1, 1000]` and its offset is non-negative — while
`list_users` itself slices with whatever limit/offset it is given; under the
clamped values the page is the plain drop/take window of the (optionally
role-filtered) user list. -/
theorem c6_clamping_in_parse_params (limitParam offsetParam : Option Int)
    (svc : UserService) (role : Option String) (ts : String) :
    ∀ L O : Int, (L, O) = parse_pagination_params limitParam offsetParam →
      1 ≤ L ∧ L ≤ 1000 ∧ 0 ≤ O ∧
      ApiController.list_users svc role L O ts =
        ApiResponse.success
          ("Found " ++
            toString (((ApiController.roleFiltered svc role).drop O.toNat).take
              L.toNat).length ++ " users")
          (some (.listData
            { users := (((ApiController.roleFiltered svc role).drop O.toNat).take
                L.toNat).map User.to_dict,
              total := (ApiController.roleFiltered svc role).length,
              limit := L, offset := O })) ts := by
  intro L O hLO
  simp only [parse_pagination_params] at hLO
  have hL : L = min (max 1 (limitParam.getD 100)) 1000 := congrArg Prod.fst hLO
  have hO : O = max 0 (offsetParam.getD 0) := congrArg Prod.snd hLO
  have h1L : 1 ≤ L := hL ▸ le_min (le_max_left _ _) (by norm_num)
  have hL1000 : L ≤ 1000 := hL ▸ min_le_right _ _
  have h0O : 0 ≤ O := hO ▸ le_max_left _ _
  refine ⟨h1L, hL1000, h0O, ?_⟩
  simp only [ApiController.list_users]
  rw [pySlice_nonneg _ _ _ h0O (by omega)]
  have ht : (O + L).toNat - O.toNat = L.toNat := by omega
  rw [ht]

/-- Witness for C6: `parse_pagination_params` on `limit=0, offset=-5` yields
the clamped pair `(1, 0)`, and `list_users` under those clamped values
returns the first user as its page. -/
theorem c6_witness :
    1 ≤ (1 : Int) ∧ (1 : Int) ≤ 1000 ∧ 0 ≤ (0 : Int) ∧
    ApiController.list_users svcOne none 1 0 "t" =
      ApiResponse.success
        ("Found " ++
          toString (((ApiController.roleFiltered svcOne none).drop
            (0 : Int).toNat).take (1 : Int).toNat).length ++ " users")
        (some (.listData
          { users := (((ApiController.roleFiltered svcOne none).drop
              (0 : Int).toNat).take (1 : Int).toNat).map User.to_dict,
            total := (ApiController.roleFiltered svcOne none).length,
            limit := 1, offset := 0 })) "t" :=
  c6_clamping_in_parse_params (some 0) (some (-5)) svcOne none "t" 1 0 (by decide)

/-- Counterexample to C6 as stated: calling the list operation directly with
`limit = 0` slices without clamping — the page is empty, whereas under the
clamped values (`limit = 1`) the page holds the first user. -/
theorem c6_counterexample :
    (ApiController.list_users svcOne none 0 0 "t").data =
      some (.listData { users := [], total := 1, limit := 0, offset := 0 }) ∧
    (ApiController.list_users svcOne none (min (max 1 0) 1000) (max 0 0) "t").data =
      some (.listData { users := [u1.to_dict], total := 1, limit := 1, offset := 0 }) :=
  ⟨rfl, rfl⟩

/-! ## C7 -/

/-- When every present field is valid (empty name, bad email, and negative
age excluded — with no condition at all on `role`), the update chain succeeds
and produces exactly the record described by `specUpdatedUser`: present
fields applied, absent fields unchanged. -/
theorem applyUpdates_ok (u : User) (req : UpdateUserRequest) (tNow : Int)
    (hname : req.name ≠ some "")
    (hemail : ∀ em, req.email = some em → validate_email em = true)
    (hage : ∀ a, req.age = some a → 0 ≤ a) :
    ApiController.applyUpdates u req tNow = (.ok (), specUpdatedUser u req tNow) := by
  obtain ⟨nameF, emailF, roleF, ageF⟩ := req
  cases nameF with
  | none =>
    cases emailF with
    | none =>
      cases ageF with
      | none =>
        cases roleF <;>
          simp_all [ApiController.applyUpdates, User.set_age, specUpdatedUser]
      | some a =>
        have hna : ¬(a < 0) := not_lt.mpr (hage a rfl)
        cases roleF <;>
          simp_all [ApiController.applyUpdates, User.set_age, specUpdatedUser, if_neg hna]
    | some em =>
      have hv : validate_email em = true := hemail em rfl
      cases ageF with
      | none =>
        cases roleF <;>
          simp_all [ApiController.applyUpdates, User.set_email, User.set_age,
            specUpdatedUser]
      | some a =>
        have hna : ¬(a < 0) := not_lt.mpr (hage a rfl)
        cases roleF <;>
          simp_all [ApiController.applyUpdates, User.set_email, User.set_age,
            specUpdatedUser, if_neg hna]
  | some n =>
    have hn : ¬(n = "") := fun he => hname (by rw [he])
    cases emailF with
    | none =>
      cases ageF with
      | none =>
        cases roleF <;>
          simp_all [ApiController.applyUpdates, User.set_name, User.set_age,
            specUpdatedUser]
      | some a =>
        have hna : ¬(a < 0) := not_lt.mpr (hage a rfl)
        cases roleF <;>
          simp_all [ApiController.applyUpdates, User.set_name, User.set_age,
            specUpdatedUser, if_neg hna]
    | some em =>
      have hv : validate_email em = true := hemail em rfl
      cases ageF with
      | none =>
        cases roleF <;>
          simp_all [ApiController.applyUpdates, User.set_name, User.set_email,
            User.set_age, specUpdatedUser]
      | some a =>
        have hna : ¬(a < 0) := not_lt.mpr (hage a rfl)
        cases roleF <;>
          simp_all [ApiController.applyUpdates, User.set_name, User.set_email,
            User.set_age, specUpdatedUser, if_neg hna]

/-- C7 (amended): `update_user` applies exactly the fields present in the
request and leaves absent fields unchanged; `name`, `email` and `age` go
through the `User` setters, whose validation (non-empty name, email pattern,
non-negative age) is enforced, while `role` is assigned directly with no
validation whatsoever. -/
theorem c7_update_applies_present_fields (svc : UserService) (uid : String)
    (req : UpdateUserRequest) (u : User) (tNow : Int) (ts : String)
    (hfind : svc.find_user uid = some u) :
    ((req.name ≠ some "") →
     (∀ em, req.email = some em → validate_email em = true) →
     (∀ a, req.age = some a → 0 ≤ a) →
      ApiController.update_user svc uid req tNow ts =
        (.ok (ApiResponse.success "User updated"
            (some (.userData (specUpdatedUser u req tNow).to_dict)) ts),
         { svc with users := dictInsert svc.users uid (specUpdatedUser u req tNow) })) ∧
    (req.name = some "" →
      (ApiController.update_user svc uid req tNow ts).1 = .error "Name cannot be empty") ∧
    (∀ em, req.name ≠ some "" → req.email = some em → validate_email em = false →
      (ApiController.update_user svc uid req tNow ts).1 =
        .error "Invalid email format") ∧
    (∀ a, req.name ≠ some "" →
     (∀ em, req.email = some em → validate_email em = true) →
      req.age = some a → a < 0 →
      (ApiController.update_user svc uid req tNow ts).1 =
        .error "Age cannot be negative") := by
  refine ⟨?_, ?_, ?_, ?_⟩
  · intro h1 h2 h3
    simp only [ApiController.update_user, hfind]
    rw [applyUpdates_ok u req tNow h1 h2 h3]
  · intro h
    have happ : ApiController.applyUpdates u req tNow =
        (.error "Name cannot be empty", u) := by
      obtain ⟨nf, ef, rf, af⟩ := req
      simp only at h
      subst h
      simp [ApiController.applyUpdates, User.set_name]
    simp [ApiController.update_user, hfind, happ]
  · intro em h1 h2 h3
    have happ : (ApiController.applyUpdates u req tNow).1 =
        .error "Invalid email format" := by
      obtain ⟨nf, ef, rf, af⟩ := req
      simp only at h1 h2
      subst h2
      cases nf with
      | none =>
        simp [ApiController.applyUpdates, User.set_email, h3]
      | some n =>
        have hn : ¬(n = "") := fun he => h1 (by rw [he])
        simp [ApiController.applyUpdates, User.set_name, User.set_email, hn, h3]
    rcases hres : ApiController.applyUpdates u req tNow with ⟨r, u2⟩
    have hr : r = .error "Invalid email format" := by rw [hres] at happ; exact happ
    subst hr
    simp [ApiController.update_user, hfind, hres]
  · intro a h1 h2 h3 h4
    have happ : (ApiController.applyUpdates u req tNow).1 =
        .error "Age cannot be negative" := by
      obtain ⟨nf, ef, rf, af⟩ := req
      simp only at h1 h3
      subst h3
      cases nf with
      | none =>
        cases ef with
        | none =>
          cases rf <;>
            simp [ApiController.applyUpdates, User.set_age, if_pos h4]
        | some em =>
          have hv : validate_email em = true := h2 em rfl
          cases rf <;>
            simp [ApiController.applyUpdates, User.set_email, User.set_age, hv,
              if_pos h4]
      | some n =>
        have hn : ¬(n = "") := fun he => h1 (by rw [he])
        cases ef with
        | none =>
          cases rf <;>
            simp [ApiController.applyUpdates, User.set_name, User.set_age, hn,
              if_pos h4]
        | some em =>
          have hv : validate_email em = true := h2 em rfl
          cases rf <;>
            simp [ApiController.applyUpdates, User.set_name, User.set_email,
              User.set_age, hn, hv, if_pos h4]
    rcases hres : ApiController.applyUpdates u req tNow with ⟨r, u2⟩
    have hr : r = .error "Age cannot be negative" := by rw [hres] at happ; exact happ
    subst hr
    simp [ApiController.update_user, hfind, hres]

/-- Witness for C7: a full update of `u1` through the facade applies all
four fields. -/
theorem c7_witness :
    ApiController.update_user svcOne "u1" reqBob 9 "t" =
      (.ok (ApiResponse.success "User updated"
          (some (.userData (specUpdatedUser u1 reqBob 9).to_dict)) "t"),
       { svcOne with users := dictInsert svcOne.users "u1" (specUpdatedUser u1 reqBob 9) }) :=
  (c7_update_applies_present_fields svcOne "u1" reqBob u1 9 "t" rfl).1
    (by decide)
    (fun em h => by rw [← Option.some.inj h]; decide)
    (fun a h => by rw [← Option.some.inj h]; decide)

/-- Counterexample to C7 as stated: updating `role` to `"superuser"` — a
value outside the `admin`/`user`/`guest` enumeration — succeeds, because the
role field is assigned directly rather than through a validating setter. -/
theorem c7_counterexample :
    (ApiController.update_user svcOne "u1" { role := some "superuser" } 5 "t").1 =
      .ok (ApiResponse.success "User updated"
        (some (.userData { id := "u1", name := "Alice", email := "a@b.co",
                           role := "superuser", age := none })) "t") := rfl

end Demo
